import Mathlib

/-!
Verification development for the Fire History Maker 2025 pipeline
(src/FireHistoryMakerBREPS_2025_Version17.py).

The development embeds the program at two levels:

* a value level for the per-record field computations (updateDate, round_mth,
  format_enddate and the add_and_calc_field normalizer), where a feature
  record is an association list from attribute name to Python value; and
* a schema/trace level for the orchestration (FireHistoryMakerBREPS_2025),
  where the geodatabase is a map from dataset name to an existence flag and a
  field list, and running the pipeline yields the final geodatabase state
  together with the list of engine calls issued.

External GIS-engine primitives (Erase, Select, Merge, ...) are opaque in the
source; their schema-level effects (output schema equals input schema, merge
output schema is the union of the input schemas) are modelled from the spec's
section 4.5 and section 6 contracts.
-/

namespace FireHistory

/-- ASCII lowercase of a string, character by character (models Python
str.lower as used for case-insensitive field-name comparison). -/
def lowerStr (s : String) : String := String.mk (s.data.map Char.toLower)

/-- ASCII uppercase of a string, character by character (models Python
str.upper as used for type keywords and reserved-field comparison). -/
def upperStr (s : String) : String := String.mk (s.data.map Char.toUpper)

/-- Numeric value of a decimal digit character. -/
def digitVal (c : Char) : Nat := c.toNat - 48

/-- Value of a digit string, most significant digit first. -/
def digitsVal (cs : List Char) : Nat := cs.foldl (fun n c => 10 * n + digitVal c) 0

/-- Python int(s) on a sign-free literal: succeeds exactly when the string is a
nonempty run of decimal digits, in which case it returns their value. -/
def parseDigits (cs : List Char) : Option Nat :=
  if cs ≠ [] ∧ cs.all Char.isDigit then some (digitsVal cs) else none

/-- Removal of every dash and slash character: the source's fallback
str(val).replace with two separator characters removes all occurrences. -/
def stripSeps (cs : List Char) : List Char :=
  cs.filter (fun c => decide (c ≠ '-' ∧ c ≠ '/'))

/-- Split a character list at every dash, keeping empty groups: the separator
structure that datetime.strptime with format "%Y-%m-%d" requires. -/
def splitDash (cs : List Char) : List (List Char) :=
  cs.foldr
    (fun c acc =>
      if c = '-' then [] :: acc
      else
        match acc with
        | [] => [[c]]
        | a :: as => (c :: a) :: as)
    [[]]

/-- Gregorian leap-year rule used by Python's datetime module. -/
def isLeap (y : Nat) : Bool := decide (y % 4 = 0 ∧ (y % 100 ≠ 0 ∨ y % 400 = 0))

/-- Number of days in a month, as validated by Python's datetime module. -/
def daysInMonth (y m : Nat) : Nat :=
  if m = 2 then (if isLeap y then 29 else 28)
  else if m = 4 ∨ m = 6 ∨ m = 9 ∨ m = 11 then 30
  else 31

/-- Model of datetime.datetime.strptime(s, "%Y-%m-%d"): three dash-separated
digit groups (one-to-four digit year, one-or-two digit month and day) forming
a valid calendar date; anything else raises, giving none here. -/
def parseDashDate (s : String) : Option (Nat × Nat × Nat) :=
  match splitDash s.data with
  | [ys, ms, ds] =>
    if ys ≠ [] ∧ ys.all Char.isDigit ∧ ys.length ≤ 4 ∧
       ms ≠ [] ∧ ms.all Char.isDigit ∧ ms.length ≤ 2 ∧
       ds ≠ [] ∧ ds.all Char.isDigit ∧ ds.length ≤ 2 then
      let y := digitsVal ys
      let m := digitsVal ms
      let d := digitsVal ds
      if 1 ≤ y ∧ 1 ≤ m ∧ m ≤ 12 ∧ 1 ≤ d ∧ d ≤ daysInMonth y m then some (y, m, d)
      else none
    else none
  | _ => none

/-- The decimal digit character for n modulo 10. -/
def digitChar (n : Nat) : Char := Char.ofNat (48 + n % 10)

/-- Zero-padded two-digit decimal rendering (strftime of a month or day). -/
def pad2 (n : Nat) : List Char := [digitChar (n / 10), digitChar n]

/-- Zero-padded four-digit decimal rendering (strftime of a year below 10000). -/
def pad4 (n : Nat) : List Char :=
  [digitChar (n / 1000), digitChar (n / 100), digitChar (n / 10), digitChar n]

/-- Characters produced by strftime with format "%Y%m%d" on the date y-m-d. -/
def ymdChars (y m d : Nat) : List Char := pad4 y ++ pad2 m ++ pad2 d

/-- A raw date attribute value as the code can receive it from a feature
record: SQL null, a datetime object (held as year, month, day), or a string. -/
inductive RawDate
  | null
  | date (y m d : Nat)
  | str (s : String)
deriving DecidableEq

/-- Shallow embedding of format_enddate from the source (format_firedate and
format_startdate are textually identical): null maps to null; a datetime is
formatted with strftime "%Y%m%d" and parsed with int; a string is tried
against strptime "%Y-%m-%d" and reformatted; otherwise all dashes and slashes
are stripped and the remainder is parsed with int, whose failure propagates as
an uncaught exception (error here). The inner error branches after a
successful strftime are unreachable because strftime output is a digit run. -/
def format_enddate : RawDate → Except Unit (Option Int)
  | .null => .ok none
  | .date y m d =>
    match parseDigits (ymdChars y m d) with
    | some n => .ok (some (Int.ofNat n))
    | none => .error ()
  | .str s =>
    match parseDashDate s with
    | some (y, m, d) =>
      match parseDigits (ymdChars y m d) with
      | some n => .ok (some (Int.ofNat n))
      | none => .error ()
    | none =>
      match parseDigits (stripSeps s.data) with
      | some n => .ok (some (Int.ofNat n))
      | none => .error ()

/-- A Python attribute value held in a feature record. -/
inductive PyVal
  | null
  | int (n : Int)
  | str (s : String)
deriving DecidableEq

/-- updateDate from the source: a null start date becomes the literal sentinel
string 20230101 before any parsing; every other value passes through. -/
def updateDate : PyVal → PyVal
  | .null => .str ("20230101")
  | v => v

/-- String form taken by round_mth: an int is first converted with str; a null
has no string form (slicing it raises). -/
def pyStr : PyVal → Option String
  | .null => none
  | .int n => some (toString n)
  | .str s => some s

/-- round_mth from the source: slice year, month and day from the date string,
force the month slice to 12 when its int value exceeds 12 (year and day slices
are kept), and return int of the resulting string. A null input or a
non-numeric slice raises, modelled as an error. -/
def round_mth (date : PyVal) : Except Unit PyVal :=
  match pyStr date with
  | none => .error ()
  | some s =>
    let cs := s.data
    let yr := cs.take 4
    let mth := (cs.drop 4).take 2
    let dy := (cs.drop 6).take 2
    match parseDigits mth with
    | none => .error ()
    | some m =>
      match parseDigits (if m > 12 then yr ++ ('1' :: '2' :: []) ++ dy else cs) with
      | none => .error ()
      | some n => .ok (.int (Int.ofNat n))

/-- Burn_Date value produced for a Victoria/DEECA record: the START_DATE_INT
normalization chain of the source (null default, then month repair), whose
result is copied unchanged into the LONG Burn_Date field. -/
def vic_burn_date (v : PyVal) : Except Unit PyVal := round_mth (updateDate v)

/-- The attribute values of a Victoria/DEECA record that the stage-6 where
clause reads. -/
structure VicRow where
  season : Int
  fire_cover : Option String
deriving DecidableEq

/-- Modelled from the spec: evaluation of the stage-6 where clause
(SEASON < 2012) OR (SEASON >= 2012 AND FIRE_COVER IN(five cover classes,
NULL)). The where-clause evaluator belongs to the external GIS engine and is
not in this repository; per the spec's admission rule the NULL element listed
in the IN clause admits a null fire_cover. -/
def seasonCoverWhere (r : VicRow) : Bool :=
  decide (r.season < 2012 ∨ (r.season ≥ 2012 ∧
    r.fire_cover ∈ [some ("30-49"), some ("50-69"), some ("70-89"),
      some ("90-100"), some ("UNKNOWN"), (none : Option String)]))

/-- The spec's wording of the season/cover admission rule: admit when season
is before 2012, or season is 2012 or later and the cover is one of the five
listed classes or null. -/
def seasonCoverSpec (r : VicRow) : Prop :=
  r.season < 2012 ∨ (2012 ≤ r.season ∧
    (r.fire_cover = some ("30-49") ∨ r.fire_cover = some ("50-69") ∨
     r.fire_cover = some ("70-89") ∨ r.fire_cover = some ("90-100") ∨
     r.fire_cover = some ("UNKNOWN") ∨ r.fire_cover = none))

/-- The stage-6 selection: keep exactly the rows satisfying the where clause. -/
def vic_mincover_select (rows : List VicRow) : List VicRow :=
  rows.filter seasonCoverWhere

instance seasonCoverSpecDecidable (r : VicRow) : Decidable (seasonCoverSpec r) := by
  unfold seasonCoverSpec
  infer_instance

/-- A field as reported by ListFields: stored name and listed type name. -/
structure FieldInfo where
  name : String
  ftype : String
deriving DecidableEq

/-- A feature record: an association list from stored attribute name to value. -/
abbrev Row := List (String × PyVal)

/-- Value of an attribute in a record. -/
def lookupRow (r : Row) (n : String) : Option PyVal :=
  (r.find? (fun p => decide (p.1 = n))).map (fun p => p.2)

/-- Store a value under an attribute name, appending the attribute if absent. -/
def setField (r : Row) (n : String) (v : PyVal) : Row :=
  if r.any (fun p => decide (p.1 = n)) then
    r.map (fun p => if p.1 = n then (n, v) else p)
  else r ++ [(n, v)]

/-- A feature collection: its schema and its records. -/
structure Collection where
  fields : List FieldInfo
  rows : List Row
deriving DecidableEq

/-- The case-insensitive field lookup loop of add_and_calc_field: the first
listed field whose lowercased name matches the lowercased requested name. -/
def findFieldCI (fields : List FieldInfo) (field_name : String) : Option FieldInfo :=
  fields.find? (fun f => decide (lowerStr f.name = lowerStr field_name))

/-- Listed type of a field created by AddField from a type keyword. The
engine lists a TEXT field as String (the compatibility case hard-coded in
add_and_calc_field), a LONG field as Integer, a DOUBLE as Double and a DATE
as Date; other keywords are kept verbatim. -/
def addedFieldType (t : String) : String :=
  if upperStr t = "TEXT" then ("String")
  else if upperStr t = "LONG" then ("Integer")
  else if upperStr t = "DOUBLE" then ("Double")
  else if upperStr t = "DATE" then ("Date")
  else t

/-- The type test of add_and_calc_field: the uppercased listed type equals the
uppercased requested keyword, or the requested keyword is TEXT and the listed
type is String. -/
def compatType (field_type arcpy_t : String) : Bool :=
  decide (upperStr arcpy_t = upperStr field_type ∨
    (upperStr field_type = "TEXT" ∧ upperStr arcpy_t = "STRING"))

/-- AddField: append the field to the schema; records gain it with a null
value until a calculation fills it. -/
def addFieldC (c : Collection) (n t : String) : Collection :=
  { fields := c.fields ++ [⟨n, addedFieldType t⟩],
    rows := c.rows.map (fun r => setField r n .null) }

/-- CalculateField: store the value of the (pure) expression into the named
field of every record. -/
def calcRows (c : Collection) (n : String) (expr : Row → PyVal) : Collection :=
  { c with rows := c.rows.map (fun r => setField r n (expr r)) }

/-- add_and_calc_field from the source: add the field if no case-insensitive
match exists and then calculate; if a match exists with a compatible type,
calculate under the existing stored name; otherwise change nothing and print a
notice. Returns the new collection and the printed notices. -/
def add_and_calc_field (c : Collection) (field_name field_type : String)
    (expr : Row → PyVal) : Collection × List String :=
  match findFieldCI c.fields field_name with
  | none => (calcRows (addFieldC c field_name field_type) field_name expr, [])
  | some f =>
    if compatType field_type f.ftype then (calcRows c f.name expr, [])
    else
      (c, ["Field " ++ field_name ++ " exists as type " ++ f.ftype ++
        " (not " ++ field_type ++ "). Skipping calculation for this field."])

/-- The reserved field names of the final cleanup (source line 257). -/
def required_fields : List String := ["OBJECTID", "Shape", "Shape_Area", "Shape_Length"]

/-- Names of the fields whose listed type is a geometry type (source lines
259-261). -/
def geometry_fields (fs : List FieldInfo) : List String :=
  (fs.filter (fun f => decide (lowerStr f.ftype ∈ [("geometry" : String), ("shape" : String)]))).map
    (fun f => f.name)

/-- The keep list of the final cleanup: Source, Burn_Date and the geometry
field names (source lines 255 and 262). -/
def keep_fields (fs : List FieldInfo) : List String :=
  ["Source", "Burn_Date"] ++ geometry_fields fs

/-- All listed field names (source line 265). -/
def all_fields (fs : List FieldInfo) : List String := fs.map (fun f => f.name)

/-- The drop list of the final cleanup: every listed name that is neither in
the keep list nor, uppercased, among the uppercased reserved names (source
lines 266-269). -/
def drop_fields (fs : List FieldInfo) : List String :=
  (all_fields fs).filter
    (fun f => decide (f ∉ keep_fields fs ∧ upperStr f ∉ required_fields.map upperStr))

/-- The schema left after the final cleanup deletes the drop list. -/
def finalSchema (fs : List FieldInfo) : List FieldInfo :=
  fs.filter (fun f => decide (f.name ∉ drop_fields fs))

/-- One engine call, with the dataset names and literal arguments it takes. -/
inductive Op
  | select (inp out whereClause : String)
  | erase (inp eraseLayer out : String)
  | clip (inp clipLayer out : String)
  | project (inp out : String) (sr : Nat)
  | sort (inp out key dir method : String)
  | copy (inp out : String)
  | merge (ins : List String) (out : String)
  | addField (fc n t : String)
  | calcField (fc n expr : String)
  | deleteFields (fc : String) (ns : List String)
deriving DecidableEq

/-- The geodatabase as the pipeline observes it: which dataset names exist and
what fields each lists. -/
structure GDB where
  existsF : String → Bool
  schemaF : String → List FieldInfo

/-- Modelled from the spec: the merge output schema is the union of the input
schemas (spec section 4.5), first occurrence of each name kept. -/
def unionFields (ls : List (List FieldInfo)) : List FieldInfo :=
  ls.foldl
    (fun acc l => acc ++ l.filter (fun f => decide (f.name ∉ acc.map (fun a => a.name))))
    []

/-- Record that a creation call produced dataset o with the given schema. -/
def createAs (g : GDB) (o : String) (sch : List FieldInfo) : GDB :=
  ⟨fun n => if n = o then true else g.existsF n,
   fun n => if n = o then sch else g.schemaF n⟩

/-- Schema-level effect of one engine call. Filter-style creation calls give
the output the input's schema (spec section 6 contracts); merge unions the
input schemas; field calls edit the schema of their target in place. -/
def applyOp (g : GDB) : Op → GDB
  | .select i o _ => createAs g o (g.schemaF i)
  | .erase i _ o => createAs g o (g.schemaF i)
  | .clip i _ o => createAs g o (g.schemaF i)
  | .project i o _ => createAs g o (g.schemaF i)
  | .sort i o _ _ _ => createAs g o (g.schemaF i)
  | .copy i o => createAs g o (g.schemaF i)
  | .merge ins o => createAs g o (unionFields (ins.map g.schemaF))
  | .addField fc n t =>
    ⟨g.existsF,
     fun x => if x = fc then g.schemaF fc ++ [⟨n, addedFieldType t⟩] else g.schemaF x⟩
  | .calcField _ _ _ => g
  | .deleteFields fc ns =>
    ⟨g.existsF,
     fun x => if x = fc then (g.schemaF fc).filter (fun f => decide (f.name ∉ ns))
       else g.schemaF x⟩

/-- The engine calls one add_and_calc_field invocation issues, given the
fields its ListFields call returns: add and calculate when no
case-insensitive match exists, recalculate under the stored name when the
type is compatible, and nothing otherwise. -/
def addAndCalcOps (fields : List FieldInfo) (fc fn ft expr : String) : List Op :=
  match findFieldCI fields fn with
  | none => [.addField fc fn ft, .calcField fc fn expr]
  | some f => if compatType ft f.ftype then [.calcField fc f.name expr] else []

/-- One statement of the pipeline body, as the source sequences them. -/
inductive Cmd
  | ifNotExists (out : String) (op : Op)
  | addCalc (fc fn ft expr : String)
  | calcOnly (fc fn expr : String)
  | dropPresent (fc : String) (deny : List String)
  | finalCleanup (fc : String)

/-- Run one statement: an existence-guarded stage creates its output only when
the output is absent; add_and_calc_field issues its calls against the current
listing; a denylist drop deletes the listed-and-present names in one batch
call only when that batch is nonempty; the final cleanup does the same with
its computed drop list. Returns the new state and the calls issued. -/
def runCmd (g : GDB) : Cmd → GDB × List Op
  | .ifNotExists out op => if g.existsF out then (g, []) else (applyOp g op, [op])
  | .addCalc fc fn ft expr =>
    (((addAndCalcOps (g.schemaF fc) fc fn ft expr).foldl applyOp g),
      addAndCalcOps (g.schemaF fc) fc fn ft expr)
  | .calcOnly fc fn expr => (g, [.calcField fc fn expr])
  | .dropPresent fc deny =>
    match deny.filter (fun f => decide (f ∈ all_fields (g.schemaF fc))) with
    | [] => (g, [])
    | ds => (applyOp g (.deleteFields fc ds), [.deleteFields fc ds])
  | .finalCleanup fc =>
    match drop_fields (g.schemaF fc) with
    | [] => (g, [])
    | ds => (applyOp g (.deleteFields fc ds), [.deleteFields fc ds])

/-- Run a statement sequence, accumulating the calls issued. -/
def runCmds (g : GDB) : List Cmd → GDB × List Op
  | [] => (g, [])
  | c :: cs =>
    ((runCmds (runCmd g c).1 cs).1, (runCmd g c).2 ++ (runCmds (runCmd g c).1 cs).2)

/-- The bushfire denylist of source lines 122-127. -/
def bushfire_drop_fields : List String :=
  ["FIRETYPE", "SEASON", "FIRE_NO", "NAME", "START_DATE", "START_DATE_INT",
   "TREATMENT_TYPE", "FIRE_SEVERITY", "FIRE_COVER", "FIREKEY", "CREATE_DATE",
   "UPDATE_DATE", "AREA_HA", "METHOD", "METHOD_COMMENTS", "ACCURACY", "DSE_ID",
   "CFA_ID", "DISTRICT_ID", "Area_calc", "Centroid_x", "Centroid_y",
   "Shape_length_1", "Shape_area_1", "Shape_length_12", "Shape_area_12",
   "Shape_length_12_13", "Shape_area_12_13"]

/-- The burns denylist of source line 135. -/
def burns_drop_fields : List String :=
  bushfire_drop_fields ++ ["Shape_length_12_13_14", "Shape_area_12_13_14"]

/-- The logging-history denylist of source lines 167-171. -/
def lastlog_drop_fields : List String :=
  ["LOGHISTID", "FMA", "COUPEADD", "COMPART", "COUPENO", "BLOCK", "DECADE",
   "SEASON", "SILVSYS", "FORESTYPE", "STARTDATE", "MAPLOGSRC", "LH_ID",
   "COUPE_NAME", "ENDDATE", "HARV_ORG", "HECTARES", "X_FMA", "AREASQM",
   "X_SILVSYS", "X_BLOCK", "X_FORETYPE", "SECTION_SD"]

/-- The South Australia denylist of source lines 214-218. -/
def sa_drop_fields : List String :=
  ["CAPTUREMET", "CAPTURESOU", "COMMENTS", "DATERELIAB", "FEATURESOU",
   "FINANCIALY", "FIREDATE", "FIREYEAR", "HECTARES", "IMAGEINFOR",
   "INCIDENTNA", "INCIDENTNU", "INCIDENTTY", "SEASON"]

/-- The pipeline body of FireHistoryMakerBREPS_2025, statement by statement in
source order (source lines 76-279). -/
def pipelineCmds : List Cmd :=
  [.ifNotExists ("NPWS_FH23_VG94_Er")
     (.erase ("NPWSFireHistory") ("VicShape_vg94") ("NPWS_FH23_VG94_Er")),
   .ifNotExists ("FIRE_HISTORY_TREATED_Select")
     (.select ("FIRE_HISTORY_TREATED") ("FIRE_HISTORY_TREATED_Select")
       ("FIRE_SEVERITY <> \x27UNBURNT\x27")),
   .addCalc ("FIRE_HISTORY_TREATED_Select") ("START_DATE_INT") ("TEXT")
     ("updateDate(!START_DATE_INT!)"),
   .calcOnly ("FIRE_HISTORY_TREATED_Select") ("START_DATE_INT")
     ("round_mth(!START_DATE_INT!)"),
   .addCalc ("FIRE_HISTORY_TREATED_Select") ("Burn_Date") ("LONG")
     ("!START_DATE_INT!"),
   .ifNotExists ("FIRE_HISTORY_vg94_mincover")
     (.select ("FIRE_HISTORY_TREATED_Select") ("FIRE_HISTORY_vg94_mincover")
       ("(SEASON < 2012) OR (SEASON >= 2012 AND FIRE_COVER IN(\x2730-49\x27,\x2750-69\x27,\x2770-89\x27,\x2790-100\x27,\x27UNKNOWN\x27, NULL))")),
   .ifNotExists ("FIRE_HISTORY_vg94_Bushfires")
     (.select ("FIRE_HISTORY_vg94_mincover") ("FIRE_HISTORY_vg94_Bushfires")
       ("FIRETYPE <> \x27BURN\x27")),
   .ifNotExists ("FIRE_HISTORY_vg94_Burns")
     (.select ("FIRE_HISTORY_vg94_mincover") ("FIRE_HISTORY_vg94_Burns")
       ("FIRETYPE = \x27BURN\x27 AND TREATMENT_TYPE IN(\x27FUEL REDUCTION\x27,\x27ECOLOGICAL\x27,\x27NOT DETERMINED\x27,\x27OTHER\x27)")),
   .ifNotExists ("FIRE_HISTORY_vg94_Burns_Treatable")
     (.erase ("FIRE_HISTORY_vg94_Burns") ("ECOFIRE_NotfeasibletotreatLow")
       ("FIRE_HISTORY_vg94_Burns_Treatable")),
   .dropPresent ("FIRE_HISTORY_vg94_Bushfires") bushfire_drop_fields,
   .addCalc ("FIRE_HISTORY_vg94_Bushfires") ("Source") ("TEXT") ("\x22BUSHFIRES\x22"),
   .dropPresent ("FIRE_HISTORY_vg94_Burns_Treatable") burns_drop_fields,
   .addCalc ("FIRE_HISTORY_vg94_Burns_Treatable") ("Source") ("TEXT") ("\x22Burns\x22"),
   .ifNotExists ("LASTLOG25_filter")
     (.select ("LASTLOG25") ("LASTLOG25_filter")
       ("SILVSYS IN(\x27CFE\x27,\x27GSE\x27,\x27RRH\x27,\x27STR\x27)")),
   .ifNotExists ("LASTLOG25_dates")
     (.select ("LASTLOG25_filter") ("LASTLOG25_dates") ("ENDDATE IS NOT NULL")),
   .addCalc ("LASTLOG25_dates") ("Burn_Date") ("LONG") ("format_enddate(!ENDDATE!)"),
   .dropPresent ("LASTLOG25_dates") lastlog_drop_fields,
   .addCalc ("LASTLOG25_dates") ("Source") ("TEXT") ("\x22LASTLOG25\x22"),
   .ifNotExists ("LASTLOG_vg94_DF")
     (.project ("LASTLOG25_dates") ("LASTLOG_vg94_DF") 3111),
   .ifNotExists ("FIRE_HISTORY_vg94_merge1")
     (.merge [("FIRE_HISTORY_vg94_Bushfires"), ("FIRE_HISTORY_vg94_Burns_Treatable"),
        ("LASTLOG_vg94_DF")] ("FIRE_HISTORY_vg94_merge1")),
   .ifNotExists ("FIRE_HISTORY_vg94_merge1_Cli")
     (.clip ("FIRE_HISTORY_vg94_merge1") ("VicShape_vg94")
       ("FIRE_HISTORY_vg94_merge1_Cli")),
   .ifNotExists ("SA_FH23_VG94_Er")
     (.erase ("FIREMGT_FireHistory_GDA94") ("VicShape_vg94") ("SA_FH23_VG94_Er")),
   .addCalc ("SA_FH23_VG94_Er") ("Burn_Date") ("LONG") ("format_firedate(!FIREDATE!)"),
   .addCalc ("SA_FH23_VG94_Er") ("Source") ("TEXT") ("\x22SA\x22"),
   .dropPresent ("SA_FH23_VG94_Er") sa_drop_fields,
   .addCalc ("NPWS_FH23_VG94_Er") ("Burn_Date") ("LONG")
     ("format_startdate(!StartDate!)"),
   .addCalc ("NPWS_FH23_VG94_Er") ("Source") ("TEXT") ("\x22NSW\x22"),
   .ifNotExists ("FH_merge")
     (.merge [("NPWS_FH23_VG94_Er"), ("FIRE_HISTORY_vg94_merge1_Cli"),
        ("SA_FH23_VG94_Er")] ("FH_merge")),
   .ifNotExists ("FH_merge_vg94")
     (.project ("FH_merge") ("FH_merge_vg94") 3111),
   .finalCleanup ("FH_merge_vg94"),
   .ifNotExists ("BREPS_FireHistory_2025")
     (.sort ("FH_merge_vg94") ("BREPS_FireHistory_2025") ("Burn_Date")
       ("DESCENDING") ("UR")),
   .ifNotExists ("BREPS_FireHistory_2025_Clean")
     (.copy ("BREPS_FireHistory_2025") ("BREPS_FireHistory_2025_Clean"))]

/-- The whole pipeline run against a geodatabase state: final state plus the
engine calls issued, in order. -/
def FireHistoryMakerBREPS_2025 (g : GDB) : GDB × List Op := runCmds g pipelineCmds

/-- The dataset a call creates or overwrites, if it is a creation call. -/
def createdOutput : Op → Option String
  | .select _ o _ => some o
  | .erase _ _ o => some o
  | .clip _ _ o => some o
  | .project _ o _ => some o
  | .sort _ o _ _ _ => some o
  | .copy _ o => some o
  | .merge _ o => some o
  | _ => none

/-- Whether a call creates or overwrites the named dataset. -/
def createsOut (op : Op) (o : String) : Bool := decide (createdOutput op = some o)

/-- Whether a call performs any write against the named dataset: creating or
overwriting it, or adding, calculating or deleting fields in it. -/
def writesTo (op : Op) (n : String) : Bool :=
  match op with
  | .select _ o _ => decide (o = n)
  | .erase _ _ o => decide (o = n)
  | .clip _ _ o => decide (o = n)
  | .project _ o _ => decide (o = n)
  | .sort _ o _ _ _ => decide (o = n)
  | .copy _ o => decide (o = n)
  | .merge _ o => decide (o = n)
  | .addField fc _ _ => decide (fc = n)
  | .calcField fc _ _ => decide (fc = n)
  | .deleteFields fc _ => decide (fc = n)

/-- Whether a call is free of reserved-field deletion: either it deletes no
fields, or none of the names it deletes is, uppercased, a reserved name. -/
def noReservedDeletes (op : Op) : Bool :=
  match op with
  | .deleteFields _ ns =>
    ns.all (fun x => decide (upperStr x ∉ required_fields.map upperStr))
  | _ => true

/-- Statement well-formedness used by the orchestration theorems: a guarded
stage's call creates exactly its declared output, and a denylist never names a
reserved field. -/
def goodCmd : Cmd → Bool
  | .ifNotExists out op => decide (createdOutput op = some out)
  | .dropPresent _ deny =>
    deny.all (fun x => decide (upperStr x ∉ required_fields.map upperStr))
  | _ => true

/-- A demonstration schema: reserved fields plus typical attribute fields. -/
def demoSchema : List FieldInfo :=
  [⟨"OBJECTID", "OID"⟩, ⟨"Shape", "Geometry"⟩, ⟨"START_DATE_INT", "String"⟩,
   ⟨"SEASON", "Integer"⟩, ⟨"FIRETYPE", "String"⟩, ⟨"Burn_Date", "Integer"⟩,
   ⟨"Source", "String"⟩, ⟨"Shape_Length", "Double"⟩, ⟨"Shape_Area", "Double"⟩]

/-- A geodatabase in which every dataset of the pipeline already exists. -/
def allExistGDB : GDB := ⟨fun _ => true, fun _ => demoSchema⟩

/-- A merged schema with a case-variant duplicate of a keep field. -/
def demoMergeSchema : List FieldInfo :=
  [⟨"OBJECTID", "OID"⟩, ⟨"Shape", "Geometry"⟩, ⟨"Source", "String"⟩,
   ⟨"Burn_Date", "Integer"⟩, ⟨"SOURCE", "String"⟩, ⟨"SEASON", "Integer"⟩,
   ⟨"Shape_Length", "Double"⟩, ⟨"Shape_Area", "Double"⟩]

/-- A geodatabase holding the demonstration merged schema for every name. -/
def demoMergeGDB : GDB := ⟨fun _ => false, fun _ => demoMergeSchema⟩

/-- A value expression that reads the field it is computing: it returns 2 when
the field already holds 1 and otherwise 1. Pure, yet not invariant under
updates of its target field. -/
def bumpExpr : Row → PyVal := fun r =>
  match lookupRow r ("F") with
  | some (.int 1) => .int 2
  | _ => .int 1

/-- A constant value expression. -/
def constSeven : Row → PyVal := fun _ => .int 7

/-- A collection with no fields and one empty record. -/
def emptyColl : Collection := ⟨[], [[]]⟩

/-- A collection whose Burn_Date field is listed as Double. -/
def doubleColl : Collection := ⟨[⟨"Burn_Date", "Double"⟩], [[(("Burn_Date"), PyVal.int 3)]]⟩

end FireHistory

namespace FireHistory

/-- A decimal digit character has digit value below ten. -/
theorem digitVal_lt_ten {c : Char} (h : c.isDigit = true) : digitVal c < 10 := by
  simp [Char.isDigit] at h
  obtain ⟨h1, h2⟩ := h
  have g2 : c.val.toNat ≤ 57 := UInt32.toNat_le_of_le (by decide) h2
  unfold digitVal Char.toNat
  omega

/-- digitChar always yields a digit character. -/
theorem digitChar_isDigit (n : Nat) : (digitChar n).isDigit = true := by
  have h : ∀ k, k < 10 → (Char.ofNat (48 + k)).isDigit = true := by decide
  have hm : n % 10 < 10 := Nat.mod_lt _ (by norm_num)
  simpa [digitChar] using h (n % 10) hm

/-- digitChar renders exactly the residue modulo ten. -/
theorem digitVal_digitChar (n : Nat) : digitVal (digitChar n) = n % 10 := by
  have h : ∀ k, k < 10 → digitVal (Char.ofNat (48 + k)) = k := by decide
  have hm : n % 10 < 10 := Nat.mod_lt _ (by norm_num)
  simpa [digitChar] using h (n % 10) hm

/-- Folding the digit accumulator from a seed scales the seed by the length. -/
theorem digitsVal_foldl (l : List Char) (a : Nat) :
    l.foldl (fun n c => 10 * n + digitVal c) a = a * 10 ^ l.length + digitsVal l := by
  induction l generalizing a with
  | nil => simp [digitsVal]
  | cons c t ih =>
    have hc : digitsVal (c :: t) = digitVal c * 10 ^ t.length + digitsVal t := by
      have : digitsVal (c :: t) = t.foldl (fun n c => 10 * n + digitVal c) (digitVal c) := by
        simp [digitsVal]
      rw [this, ih]
    simp only [List.foldl_cons, List.length_cons, hc]
    rw [ih]
    ring

/-- Digit value of a concatenation. -/
theorem digitsVal_append (l1 l2 : List Char) :
    digitsVal (l1 ++ l2) = digitsVal l1 * 10 ^ l2.length + digitsVal l2 := by
  have : digitsVal (l1 ++ l2) = l2.foldl (fun n c => 10 * n + digitVal c) (digitsVal l1) := by
    simp [digitsVal, List.foldl_append]
  rw [this, digitsVal_foldl]

/-- A digit run's value is below ten to its length. -/
theorem digitsVal_lt (cs : List Char) (h : cs.all Char.isDigit = true) :
    digitsVal cs < 10 ^ cs.length := by
  induction cs with
  | nil => simp [digitsVal]
  | cons c t ih =>
    simp only [List.all_cons, Bool.and_eq_true] at h
    have hc : digitsVal (c :: t) = digitVal c * 10 ^ t.length + digitsVal t := by
      have : digitsVal (c :: t) = t.foldl (fun n c => 10 * n + digitVal c) (digitVal c) := by
        simp [digitsVal]
      rw [this, digitsVal_foldl]
    have h9 : digitVal c ≤ 9 := by have := digitVal_lt_ten h.1; omega
    have ht := ih h.2
    have : digitVal c * 10 ^ t.length + digitsVal t < 10 * 10 ^ t.length := by
      have : digitVal c * 10 ^ t.length ≤ 9 * 10 ^ t.length :=
        Nat.mul_le_mul_right _ h9
      omega
    simpa [hc, List.length_cons, pow_succ, Nat.mul_comm] using this

/-- parseDigits succeeds on a nonempty digit run. -/
theorem parseDigits_some {cs : List Char} (h1 : cs ≠ []) (h2 : cs.all Char.isDigit = true) :
    parseDigits cs = some (digitsVal cs) := by
  simp [parseDigits, h1, h2]

/-- Every character of a two-digit pad is a digit. -/
theorem pad2_all (n : Nat) : (pad2 n).all Char.isDigit = true := by
  simp [pad2, digitChar_isDigit]

/-- Every character of a four-digit pad is a digit. -/
theorem pad4_all (n : Nat) : (pad4 n).all Char.isDigit = true := by
  simp [pad4, digitChar_isDigit]

/-- Value of a two-digit pad below one hundred. -/
theorem digitsVal_pad2 {n : Nat} (h : n < 100) : digitsVal (pad2 n) = n := by
  simp only [pad2, digitsVal, List.foldl_cons, List.foldl_nil, digitVal_digitChar]
  omega

/-- Value of a four-digit pad below ten thousand. -/
theorem digitsVal_pad4 {n : Nat} (h : n < 10000) : digitsVal (pad4 n) = n := by
  simp only [pad4, digitsVal, List.foldl_cons, List.foldl_nil, digitVal_digitChar]
  omega

/-- The strftime "%Y%m%d" character run is a nonempty digit run. -/
theorem ymdChars_digits (y m d : Nat) :
    ymdChars y m d ≠ [] ∧ (ymdChars y m d).all Char.isDigit = true := by
  constructor
  · simp [ymdChars, pad4]
  · simp [ymdChars, List.all_append, pad2_all, pad4_all]

/-- int of the strftime "%Y%m%d" output recomposes the date numerically. -/
theorem parseDigits_ymdChars {y m d : Nat} (hy : y < 10000) (hm : m < 100) (hd : d < 100) :
    parseDigits (ymdChars y m d) = some (y * 10000 + m * 100 + d) := by
  rw [parseDigits_some (ymdChars_digits y m d).1 (ymdChars_digits y m d).2]
  have h2d : (pad2 d).length = 2 := by simp [pad2]
  have h2m : (pad2 m).length = 2 := by simp [pad2]
  have : digitsVal (ymdChars y m d) = y * 10000 + m * 100 + d := by
    unfold ymdChars
    rw [digitsVal_append, digitsVal_append, h2d, h2m, digitsVal_pad4 hy,
      digitsVal_pad2 hm, digitsVal_pad2 hd]
    ring
  rw [this]

/-- Months never exceed 31 days. -/
theorem daysInMonth_le (y m : Nat) : daysInMonth y m ≤ 31 := by
  unfold daysInMonth
  split_ifs <;> omega

end FireHistory

namespace FireHistory

/-- A successful strptime parse yields a year of at most four digits, a month
between 1 and 12, and a day between 1 and the month length (at most 31). -/
theorem parseDashDate_bounds {s : String} {y m d : Nat} (h : parseDashDate s = some (y, m, d)) :
    1 ≤ y ∧ y < 10000 ∧ 1 ≤ m ∧ m ≤ 12 ∧ 1 ≤ d ∧ d ≤ 31 := by
  unfold parseDashDate at h
  split at h
  next ys ms ds heq =>
    dsimp only at h
    split at h
    next hcond =>
      split at h
      next hrange =>
        injection h with h'
        obtain ⟨hy, hm, hd⟩ : digitsVal ys = y ∧ digitsVal ms = m ∧ digitsVal ds = d := by
          simpa [Prod.ext_iff] using h'
        obtain ⟨hy1, hya, hyl, hm1, hma, hml, hd1, hda, hdl⟩ := hcond
        obtain ⟨g1, g2, g3, g4, g5⟩ := hrange
        have hylt : digitsVal ys < 10 ^ ys.length := digitsVal_lt ys hya
        have : (10 : Nat) ^ ys.length ≤ 10 ^ 4 := Nat.pow_le_pow_right (by norm_num) hyl
        have h31 : digitsVal ds ≤ 31 := le_trans g5 (daysInMonth_le _ _)
        refine ⟨hy ▸ g1, ?_, hm ▸ g2, hm ▸ g3, hd ▸ g4, hd ▸ h31⟩
        omega
      next => simp at h
    next => simp at h
  next => simp at h

/-- Claim C3: the date canonicalizer follows the first-success-wins algorithm
of the source: a null input yields null; a date input is formatted as
YYYYMMDD and parsed as an integer; a string matching the dashed date pattern
is reformatted to a YYYYMMDD integer; otherwise dashes and slashes are
stripped from the string and the remainder parsed as an integer; and when
every strategy fails the computation raises. In particular the slashed string
2023/04/05 and the plain digit string 20230405 both yield 20230405. -/
theorem format_enddate_spec :
    format_enddate .null = .ok none
    ∧ format_enddate (.str ("2023/04/05")) = .ok (some 20230405)
    ∧ format_enddate (.str ("20230405")) = .ok (some 20230405)
    ∧ (∀ y m d : Nat, y < 10000 → m < 100 → d < 100 →
        format_enddate (.date y m d) = .ok (some (Int.ofNat (y * 10000 + m * 100 + d))))
    ∧ (∀ (s : String) (y m d : Nat), parseDashDate s = some (y, m, d) →
        format_enddate (.str s) = .ok (some (Int.ofNat (y * 10000 + m * 100 + d))))
    ∧ (∀ s : String, parseDashDate s = none → parseDigits (stripSeps s.data) = none →
        format_enddate (.str s) = .error ()) := by
  refine ⟨rfl, rfl, rfl, ?_, ?_, ?_⟩
  · intro y m d hy hm hd
    simp [format_enddate, parseDigits_ymdChars hy hm hd]
  · intro s y m d h
    obtain ⟨-, hy, -, hm, -, hd⟩ := parseDashDate_bounds h
    have hpd : parseDigits (ymdChars y m d) = some (y * 10000 + m * 100 + d) :=
      parseDigits_ymdChars hy (show m < 100 by omega) (show d < 100 by omega)
    simp [format_enddate, h, hpd]
  · intro s h1 h2
    simp [format_enddate, h1, h2]

/-- Witness for C3: the dated, dashed and unparseable branches at concrete
inputs, each obtained from the claim theorem. -/
theorem format_enddate_spec_witness :
    format_enddate (.date 2023 4 5) = .ok (some 20230405)
    ∧ format_enddate (.str ("2023-04-05")) = .ok (some 20230405)
    ∧ format_enddate (.str ("x")) = .error () := by
  refine ⟨?_, ?_, ?_⟩
  · simpa using format_enddate_spec.2.2.2.1 2023 4 5 (by norm_num) (by norm_num) (by norm_num)
  · simpa using format_enddate_spec.2.2.2.2.1 ("2023-04-05") 2023 4 5 (by rfl)
  · exact format_enddate_spec.2.2.2.2.2 ("x") (by rfl) (by rfl)

/-- The year, month and day slices of a strftime "%Y%m%d" character run. -/
theorem ymd_slices (y m d : Nat) :
    (ymdChars y m d).take 4 = pad4 y
    ∧ ((ymdChars y m d).drop 4).take 2 = pad2 m
    ∧ ((ymdChars y m d).drop 6).take 2 = pad2 d := by
  refine ⟨?_, ?_, ?_⟩ <;> simp [ymdChars, pad4, pad2]

/-- Claim C5: the month-bounds repair forces the month component to 12
whenever the sliced month exceeds 12, preserving the year and day components,
and leaves dates with a month of at most 12 unchanged; in particular the
repair applied to the string 20231305 yields the integer 20231205. -/
theorem round_mth_spec :
    round_mth (.str ("20231305")) = .ok (.int 20231205)
    ∧ (∀ y m d : Nat, y < 10000 → m < 100 → d < 100 → 12 < m →
        round_mth (.str (String.mk (ymdChars y m d))) =
          .ok (.int (Int.ofNat (y * 10000 + 1200 + d))))
    ∧ (∀ y m d : Nat, y < 10000 → m < 100 → d < 100 → m ≤ 12 →
        round_mth (.str (String.mk (ymdChars y m d))) =
          .ok (.int (Int.ofNat (y * 10000 + m * 100 + d)))) := by
  have hdata : ∀ cs : List Char, (String.mk cs).data = cs := fun _ => rfl
  have hp12 : ('1' :: '2' :: []) = pad2 12 := by decide
  refine ⟨by rfl, ?_, ?_⟩
  · intro y m d hy hm hd hgt
    have hmth : parseDigits ((ymdChars y m d).drop 4 |>.take 2) = some m := by
      rw [(ymd_slices y m d).2.1, parseDigits_some (by simp [pad2]) (pad2_all m),
        digitsVal_pad2 hm]
    simp only [round_mth, pyStr, hdata]
    rw [hmth]
    simp only [hgt, if_pos, (ymd_slices y m d).1, (ymd_slices y m d).2.2, hp12]
    rw [show pad4 y ++ pad2 12 ++ pad2 d = ymdChars y 12 d from rfl,
      parseDigits_ymdChars hy (by norm_num) hd]
  · intro y m d hy hm hd hle
    have hmth : parseDigits ((ymdChars y m d).drop 4 |>.take 2) = some m := by
      rw [(ymd_slices y m d).2.1, parseDigits_some (by simp [pad2]) (pad2_all m),
        digitsVal_pad2 hm]
    simp only [round_mth, pyStr, hdata]
    rw [hmth]
    have : ¬ (m > 12) := by omega
    simp only [this, if_neg, not_false_iff]
    rw [parseDigits_ymdChars hy hm hd]

/-- Witness for C5: the repair at month 13 and the identity at month 4,
obtained from the claim theorem. -/
theorem round_mth_spec_witness :
    round_mth (.str (String.mk (ymdChars 2023 13 5))) = .ok (.int 20231205)
    ∧ round_mth (.str (String.mk (ymdChars 2023 4 5))) = .ok (.int 20230405) := by
  constructor
  · simpa using round_mth_spec.2.1 2023 13 5 (by norm_num) (by norm_num) (by norm_num)
      (by norm_num)
  · simpa using round_mth_spec.2.2 2023 4 5 (by norm_num) (by norm_num) (by norm_num)
      (by norm_num)

/-- Claim C4: for the Victoria/DEECA start-date field, a null raw value
becomes the literal sentinel string 20230101 before any parsing, and after
the full normalization chain (null default, month repair, Burn_Date
population) such a record's Burn_Date equals the integer 20230101. -/
theorem vic_null_date_default :
    updateDate .null = .str ("20230101") ∧ vic_burn_date .null = .ok (.int 20230101) :=
  ⟨rfl, by rfl⟩

end FireHistory

namespace FireHistory

/-- Claim C6: the Victoria/DEECA season/cover admission stage selects exactly
the records with season before 2012, or season 2012 or later and a fire cover
among the five listed classes or null; in particular every record with season
at least 2012 and a null fire cover is admitted. -/
theorem season_cover_admission :
    (∀ r : VicRow, seasonCoverWhere r = true ↔ seasonCoverSpec r)
    ∧ (∀ rows : List VicRow,
        vic_mincover_select rows = rows.filter (fun r => decide (seasonCoverSpec r)))
    ∧ (∀ s : Int, 2012 ≤ s → seasonCoverWhere ⟨s, none⟩ = true) := by
  have hiff : ∀ r : VicRow, seasonCoverWhere r = true ↔ seasonCoverSpec r := by
    intro r
    simp [seasonCoverWhere, seasonCoverSpec]
  refine ⟨hiff, ?_, ?_⟩
  · intro rows
    unfold vic_mincover_select
    apply List.filter_congr
    intro r _
    by_cases h : seasonCoverSpec r
    · simp [decide_eq_true_eq, h, (hiff r).mpr h]
    · cases hb : seasonCoverWhere r with
      | false => simp [decide_eq_false h]
      | true => exact absurd ((hiff r).mp hb) h
  · intro s hs
    exact (hiff ⟨s, none⟩).mpr (Or.inr ⟨hs, by tauto⟩)

/-- Witness for C6: a 2015-season record with null fire cover passes the
where clause, by the claim theorem. -/
theorem season_cover_admission_witness :
    seasonCoverWhere ⟨2015, none⟩ = true :=
  season_cover_admission.2.2 2015 (by norm_num)

/-- Storing into a record whose keys already contain the name rewrites the
value in place. -/
theorem setField_of_any {r : Row} {n : String} (v : PyVal)
    (h : r.any (fun p => decide (p.1 = n)) = true) :
    setField r n v = r.map (fun p => if p.1 = n then (n, v) else p) := by
  simp [setField, h]

/-- Storing into a record without the key appends the binding. -/
theorem setField_of_not_any {r : Row} {n : String} (v : PyVal)
    (h : ¬ r.any (fun p => decide (p.1 = n)) = true) :
    setField r n v = r ++ [(n, v)] := by
  simp [setField, h]

/-- After a store the key is always present. -/
theorem any_setField (r : Row) (n : String) (v : PyVal) :
    (setField r n v).any (fun p => decide (p.1 = n)) = true := by
  by_cases h : r.any (fun p => decide (p.1 = n)) = true
  · rw [setField_of_any v h, List.any_map]
    have : ((fun p : String × PyVal => decide (p.1 = n)) ∘ fun p => if p.1 = n then (n, v) else p)
        = fun p : String × PyVal => decide (p.1 = n) := by
      funext p
      by_cases hp : p.1 = n <;> simp [hp]
    rw [this]
    exact h
  · rw [setField_of_not_any v h, List.any_append]
    simp

/-- Two consecutive stores to the same key collapse to the second store. -/
theorem setField_setField (r : Row) (n : String) (v w : PyVal) :
    setField (setField r n v) n w = setField r n w := by
  by_cases h : r.any (fun p => decide (p.1 = n)) = true
  · rw [setField_of_any w (any_setField r n v), setField_of_any v h, setField_of_any w h,
      List.map_map]
    apply List.map_congr_left
    intro p _
    by_cases hp : p.1 = n <;> simp [hp]
  · have hall : ∀ p ∈ r, ¬ (p.1 = n) := by
      intro p hp hpn
      exact h (List.any_eq_true.mpr ⟨p, hp, by simp [hpn]⟩)
    rw [setField_of_any w (any_setField r n v), setField_of_not_any v h,
      setField_of_not_any w h, List.map_append]
    have hr : r.map (fun p => if p.1 = n then (n, w) else p) = r := by
      have := List.map_congr_left (l := r)
        (f := fun p : String × PyVal => if p.1 = n then (n, w) else p) (g := id)
        (fun p hp => by simp [hall p hp])
      simpa using this
    rw [hr]
    simp

/-- Calculating a field twice with an expression whose value is invariant
under updates of that field equals calculating it once. -/
theorem calcRows_calcRows (c : Collection) (n : String) (expr : Row → PyVal)
    (h : ∀ (r : Row) (v : PyVal), expr (setField r n v) = expr r) :
    calcRows (calcRows c n expr) n expr = calcRows c n expr := by
  unfold calcRows
  simp only [List.map_map]
  congr 1
  apply List.map_congr_left
  intro r _
  simp only [Function.comp_apply]
  rw [h, setField_setField]

/-- Claim C7 (amended): the field normalizer is idempotent for every value
expression whose result is invariant under updates of the target field (in
particular every expression reading only other fields): a second invocation
with identical arguments leaves the collection unchanged. -/
theorem ensure_field_idempotent (c : Collection) (fn ft : String) (expr : Row → PyVal)
    (hexpr : ∀ (n : String) (r : Row) (v : PyVal), lowerStr n = lowerStr fn →
      expr (setField r n v) = expr r) :
    (add_and_calc_field (add_and_calc_field c fn ft expr).1 fn ft expr).1 =
      (add_and_calc_field c fn ft expr).1 := by
  cases hfind : findFieldCI c.fields fn with
  | some f =>
    have hname : lowerStr f.name = lowerStr fn := by
      have := List.find?_some (show List.find?
        (fun f => decide (lowerStr f.name = lowerStr fn)) c.fields = some f from hfind)
      simpa using this
    by_cases hcomp : compatType ft f.ftype = true
    · have h1 : add_and_calc_field c fn ft expr = (calcRows c f.name expr, []) := by
        unfold add_and_calc_field
        rw [hfind]
        simp [hcomp]
      rw [h1]
      show (add_and_calc_field (calcRows c f.name expr) fn ft expr).1 = calcRows c f.name expr
      have hfind2 : findFieldCI (calcRows c f.name expr).fields fn = some f := hfind
      unfold add_and_calc_field
      rw [hfind2]
      simp only [hcomp, if_true]
      exact calcRows_calcRows c f.name expr (fun r v => hexpr f.name r v hname)
    · have h1 : add_and_calc_field c fn ft expr = (c,
          ["Field " ++ fn ++ " exists as type " ++ f.ftype ++ " (not " ++ ft ++
            "). Skipping calculation for this field."]) := by
        unfold add_and_calc_field
        rw [hfind]
        simp [hcomp]
      rw [h1]
      show (add_and_calc_field c fn ft expr).1 = c
      rw [h1]
  | none =>
    have h1 : add_and_calc_field c fn ft expr = (calcRows (addFieldC c fn ft) fn expr, []) := by
      unfold add_and_calc_field
      rw [hfind]
    rw [h1]
    show (add_and_calc_field (calcRows (addFieldC c fn ft) fn expr) fn ft expr).1 =
      calcRows (addFieldC c fn ft) fn expr
    have hfind1 : findFieldCI (calcRows (addFieldC c fn ft) fn expr).fields fn =
        some ⟨fn, addedFieldType ft⟩ := by
      show findFieldCI (c.fields ++ [⟨fn, addedFieldType ft⟩]) fn = some ⟨fn, addedFieldType ft⟩
      unfold findFieldCI
      rw [List.find?_append]
      rw [show List.find? (fun f => decide (lowerStr f.name = lowerStr fn)) c.fields = none
        from hfind]
      simp
    by_cases hcomp : compatType ft (addedFieldType ft) = true
    · unfold add_and_calc_field
      rw [hfind1]
      simp only [hcomp, if_true]
      exact calcRows_calcRows (addFieldC c fn ft) fn expr (fun r v => hexpr fn r v rfl)
    · unfold add_and_calc_field
      rw [hfind1]
      simp [hcomp]

/-- Witness for C7 (amended): with a constant expression the second invocation
changes nothing, by the claim theorem. -/
theorem ensure_field_idempotent_witness :
    (add_and_calc_field (add_and_calc_field emptyColl ("F") ("TEXT") constSeven).1
        ("F") ("TEXT") constSeven).1 =
      (add_and_calc_field emptyColl ("F") ("TEXT") constSeven).1 :=
  ensure_field_idempotent emptyColl ("F") ("TEXT") constSeven (fun _ _ _ _ => rfl)

/-- Counterexample to C7 as stated: with the pure expression bumpExpr, which
reads the field it computes, the second invocation with identical arguments
changes the stored values, so invoking twice differs from invoking once. -/
theorem ensure_field_not_idempotent :
    (add_and_calc_field (add_and_calc_field emptyColl ("F") ("TEXT") bumpExpr).1
        ("F") ("TEXT") bumpExpr).1 ≠
      (add_and_calc_field emptyColl ("F") ("TEXT") bumpExpr).1 := by
  decide

/-- Claim C8: when the requested field exists under a case-insensitive name
match with an incompatible type, the normalizer changes nothing and raises
nothing: it returns the collection unchanged together with exactly one
diagnostic notice. -/
theorem field_type_conflict_noop (c : Collection) (fn ft : String) (expr : Row → PyVal)
    (f : FieldInfo) (hfind : findFieldCI c.fields fn = some f)
    (hcomp : ¬ compatType ft f.ftype = true) :
    add_and_calc_field c fn ft expr =
      (c, ["Field " ++ fn ++ " exists as type " ++ f.ftype ++ " (not " ++ ft ++
        "). Skipping calculation for this field."]) := by
  unfold add_and_calc_field
  rw [hfind]
  simp [hcomp]

/-- Witness for C8: requesting Burn_Date as LONG against a collection listing
it as Double leaves the collection unchanged with one notice, by the claim
theorem. -/
theorem field_type_conflict_noop_witness :
    add_and_calc_field doubleColl ("Burn_Date") ("LONG") constSeven =
      (doubleColl,
        ["Field Burn_Date exists as type Double (not LONG). Skipping calculation for this field."]) := by
  exact field_type_conflict_noop doubleColl ("Burn_Date") ("LONG") constSeven
    ⟨"Burn_Date", "Double"⟩ (by rfl) (by decide)

/-- Names left by the final cleanup: exactly the listed names that are Source,
Burn_Date, a geometry field name, or (uppercased) a reserved name. -/
theorem finalSchema_names (fs : List FieldInfo) :
    (finalSchema fs).map (fun f => f.name) =
      (all_fields fs).filter (fun n => decide (n = ("Source" : String)
        ∨ n = ("Burn_Date" : String)
        ∨ n ∈ geometry_fields fs ∨ upperStr n ∈ required_fields.map upperStr)) := by
  unfold finalSchema all_fields
  rw [show (fun f : FieldInfo => decide (f.name ∉ drop_fields fs))
      = ((fun n => decide (n ∉ drop_fields fs)) ∘ fun f : FieldInfo => f.name) from rfl]
  rw [← List.filter_map]
  apply List.filter_congr
  intro n hn
  have hiff : (n ∉ drop_fields fs) ↔ (n = "Source" ∨ n = "Burn_Date" ∨
      n ∈ geometry_fields fs ∨ upperStr n ∈ required_fields.map upperStr) := by
    unfold drop_fields
    rw [List.mem_filter]
    simp only [all_fields, hn, true_and, decide_eq_true_eq, keep_fields, List.mem_append,
      List.mem_cons, List.not_mem_nil, or_false]
    tauto
  simp only [decide_eq_decide]
  exact hiff

/-- Claim C1: for any merged schema containing Source and Burn_Date, the final
cleanup leaves exactly the fields named Source or Burn_Date, the
geometry-typed fields and the reserved fields (matched case-insensitively);
the drop set is all fields minus the keep set minus the reserved set, and the
deletion happens in one batch call exactly when that set is nonempty. -/
theorem finalize_field_set (g : GDB)
    (hS : ("Source" : String) ∈ all_fields (g.schemaF ("FH_merge_vg94")))
    (hB : ("Burn_Date" : String) ∈ all_fields (g.schemaF ("FH_merge_vg94"))) :
    ((runCmd g (.finalCleanup ("FH_merge_vg94"))).1.schemaF ("FH_merge_vg94") =
        finalSchema (g.schemaF ("FH_merge_vg94")))
    ∧ ((finalSchema (g.schemaF ("FH_merge_vg94"))).map (fun f => f.name) =
        (all_fields (g.schemaF ("FH_merge_vg94"))).filter
          (fun n => decide (n = ("Source" : String) ∨ n = ("Burn_Date" : String) ∨
            n ∈ geometry_fields (g.schemaF ("FH_merge_vg94")) ∨
            upperStr n ∈ required_fields.map upperStr)))
    ∧ ("Source" : String) ∈ (finalSchema (g.schemaF ("FH_merge_vg94"))).map (fun f => f.name)
    ∧ ("Burn_Date" : String) ∈ (finalSchema (g.schemaF ("FH_merge_vg94"))).map (fun f => f.name)
    ∧ ((runCmd g (.finalCleanup ("FH_merge_vg94"))).2 =
        if drop_fields (g.schemaF ("FH_merge_vg94")) = [] then []
        else [Op.deleteFields ("FH_merge_vg94") (drop_fields (g.schemaF ("FH_merge_vg94")))]) := by
  have hmemS : ("Source" : String) ∈
      (finalSchema (g.schemaF ("FH_merge_vg94"))).map (fun f => f.name) := by
    rw [finalSchema_names]
    rw [List.mem_filter]
    exact ⟨hS, by simp⟩
  have hmemB : ("Burn_Date" : String) ∈
      (finalSchema (g.schemaF ("FH_merge_vg94"))).map (fun f => f.name) := by
    rw [finalSchema_names]
    rw [List.mem_filter]
    exact ⟨hB, by simp⟩
  refine ⟨?_, finalSchema_names _, hmemS, hmemB, ?_⟩
  · cases hd : drop_fields (g.schemaF ("FH_merge_vg94")) with
    | nil =>
      simp only [runCmd, hd]
      show g.schemaF ("FH_merge_vg94") = finalSchema (g.schemaF ("FH_merge_vg94"))
      unfold finalSchema
      rw [hd]
      simp
    | cons a t =>
      simp only [runCmd, hd]
      show ((g.schemaF ("FH_merge_vg94")).filter
          (fun f => decide (f.name ∉ a :: t))) = finalSchema (g.schemaF ("FH_merge_vg94"))
      unfold finalSchema
      rw [hd]
  · cases hd : drop_fields (g.schemaF ("FH_merge_vg94")) with
    | nil =>
      simp only [runCmd, hd]
      simp
    | cons a t =>
      simp only [runCmd, hd]
      simp

/-- Witness for C1: the final cleanup of the demonstration merged schema,
obtained from the claim theorem. -/
theorem finalize_field_set_witness :
    ((runCmd demoMergeGDB (.finalCleanup ("FH_merge_vg94"))).1.schemaF ("FH_merge_vg94") =
      finalSchema demoMergeSchema)
    ∧ ("Source" : String) ∈ (finalSchema demoMergeSchema).map (fun f => f.name)
    ∧ ("Burn_Date" : String) ∈ (finalSchema demoMergeSchema).map (fun f => f.name) := by
  have h := finalize_field_set demoMergeGDB (by decide) (by decide)
  exact ⟨h.1, h.2.2.1, h.2.2.2.1⟩

/-- Claim C10: the keep-set membership test of the final cleanup is
case-sensitive (only reserved names are compared case-insensitively): a field
whose name differs from Source or Burn_Date only in letter case, and which is
neither reserved-named nor sharing its name with a geometry field, lands in
the drop set and is deleted. -/
theorem case_variant_keep_dropped (fs : List FieldInfo) (f : FieldInfo) (hmem : f ∈ fs)
    (hcase : lowerStr f.name = lowerStr ("Source") ∨ lowerStr f.name = lowerStr ("Burn_Date"))
    (hnS : f.name ≠ "Source") (hnB : f.name ≠ "Burn_Date")
    (hres : upperStr f.name ∉ required_fields.map upperStr)
    (hgeom : f.name ∉ geometry_fields fs) :
    f.name ∈ drop_fields fs ∧ f.name ∉ (finalSchema fs).map (fun x => x.name) := by
  have hin : f.name ∈ all_fields fs :=
    show f.name ∈ fs.map (fun x => x.name) from List.mem_map_of_mem _ hmem
  have hdrop : f.name ∈ drop_fields fs := by
    unfold drop_fields
    rw [List.mem_filter]
    refine ⟨hin, ?_⟩
    simp only [decide_eq_true_eq, keep_fields, List.mem_append, List.mem_cons,
      List.not_mem_nil, or_false]
    tauto
  refine ⟨hdrop, ?_⟩
  rw [finalSchema_names]
  intro hmem'
  rw [List.mem_filter] at hmem'
  have hor := of_decide_eq_true hmem'.2
  rcases hor with h | h | h | h
  exacts [hnS h, hnB h, hgeom h, hres h]

/-- Witness for C10: the all-caps duplicate SOURCE of the demonstration merged
schema is dropped, by the claim theorem. -/
theorem case_variant_keep_dropped_witness :
    ("SOURCE" : String) ∈ drop_fields demoMergeSchema
    ∧ ("SOURCE" : String) ∉ (finalSchema demoMergeSchema).map (fun x => x.name) :=
  case_variant_keep_dropped demoMergeSchema ⟨"SOURCE", "String"⟩ (by decide)
    (Or.inl (by decide)) (by decide) (by decide) (by decide) (by decide)

end FireHistory

namespace FireHistory

/-- An existing dataset still exists after any engine call: no pipeline call
removes a dataset. -/
theorem existsF_applyOp (g : GDB) (op : Op) (o : String) (h : g.existsF o = true) :
    (applyOp g op).existsF o = true := by
  cases op <;> simp only [applyOp, createAs] <;> first
    | exact h
    | (split <;> simp [h])

/-- Existence is preserved across any call sequence. -/
theorem existsF_foldl (g : GDB) (ops : List Op) (o : String) (h : g.existsF o = true) :
    (ops.foldl applyOp g).existsF o = true := by
  induction ops generalizing g with
  | nil => exact h
  | cons op t ih => exact ih _ (existsF_applyOp g op o h)

/-- Existence is preserved across any pipeline statement. -/
theorem existsF_runCmd (g : GDB) (c : Cmd) (o : String) (h : g.existsF o = true) :
    (runCmd g c).1.existsF o = true := by
  cases c with
  | ifNotExists out op =>
    simp only [runCmd]
    split
    · exact h
    · exact existsF_applyOp g op o h
  | addCalc fc fn ft expr => exact existsF_foldl g _ o h
  | calcOnly fc fn expr => exact h
  | dropPresent fc deny =>
    simp only [runCmd]
    cases hf : deny.filter (fun f => decide (f ∈ all_fields (g.schemaF fc))) with
    | nil => exact h
    | cons a t => exact existsF_applyOp g (Op.deleteFields fc (a :: t)) o h
  | finalCleanup fc =>
    simp only [runCmd]
    cases hf : drop_fields (g.schemaF fc) with
    | nil => exact h
    | cons a t => exact existsF_applyOp g (Op.deleteFields fc (a :: t)) o h

/-- The field normalizer issues no creation call. -/
theorem addAndCalcOps_no_creation (fields : List FieldInfo) (fc fn ft expr : String)
    (o : String) :
    ((addAndCalcOps fields fc fn ft expr).all (fun op => !(createsOut op o))) = true := by
  unfold addAndCalcOps
  cases findFieldCI fields fn with
  | none => simp [createsOut, createdOutput]
  | some f =>
    by_cases hcomp : compatType ft f.ftype = true
    · simp [hcomp, createsOut, createdOutput]
    · simp [hcomp]

/-- The field normalizer issues no field-deletion call. -/
theorem addAndCalcOps_no_deletes (fields : List FieldInfo) (fc fn ft expr : String) :
    ((addAndCalcOps fields fc fn ft expr).all noReservedDeletes) = true := by
  unfold addAndCalcOps
  cases findFieldCI fields fn with
  | none => simp [noReservedDeletes]
  | some f =>
    by_cases hcomp : compatType ft f.ftype = true
    · simp [hcomp, noReservedDeletes]
    · simp [hcomp]

/-- Running well-formed statements over a state where dataset o exists never
issues a call that creates or overwrites o. -/
theorem runCmds_no_creation (cmds : List Cmd) (g : GDB) (o : String)
    (hgood : cmds.all goodCmd = true) (h : g.existsF o = true) :
    ((runCmds g cmds).2.all (fun op => !(createsOut op o))) = true := by
  induction cmds generalizing g with
  | nil => rfl
  | cons c cs ih =>
    obtain ⟨hc, hcs⟩ : goodCmd c = true ∧ cs.all goodCmd = true := by simpa using hgood
    simp only [runCmds, List.all_append, Bool.and_eq_true]
    refine ⟨?_, ih (runCmd g c).1 hcs (existsF_runCmd g c o h)⟩
    cases c with
    | ifNotExists out op =>
      simp only [runCmd]
      split
      next hex => rfl
      next hex =>
        simp only [List.all_cons, List.all_nil, Bool.and_true]
        have hgc : createdOutput op = some out := by simpa [goodCmd] using hc
        by_cases ho : o = out
        · subst ho
          exact absurd h hex
        · have hne : createdOutput op ≠ some o := by
            rw [hgc]
            intro hh
            injection hh with hh'
            exact ho hh'.symm
          simp [createsOut, hne]
    | addCalc fc fn ft expr => exact addAndCalcOps_no_creation _ fc fn ft expr o
    | calcOnly fc fn expr => simp [runCmd, createsOut, createdOutput]
    | dropPresent fc deny =>
      simp only [runCmd]
      cases hf : deny.filter (fun f => decide (f ∈ all_fields (g.schemaF fc))) with
      | nil => rfl
      | cons a t => simp [createsOut, createdOutput]
    | finalCleanup fc =>
      simp only [runCmd]
      cases hf : drop_fields (g.schemaF fc) with
      | nil => rfl
      | cons a t => simp [createsOut, createdOutput]

/-- Running well-formed statements never deletes a reserved field: guarded
creation calls delete nothing, the normalizer deletes nothing, denylist drops
carry no reserved name, and the final cleanup excludes reserved names. -/
theorem runCmds_no_reserved (cmds : List Cmd) (g : GDB) (hgood : cmds.all goodCmd = true) :
    ((runCmds g cmds).2.all noReservedDeletes) = true := by
  induction cmds generalizing g with
  | nil => rfl
  | cons c cs ih =>
    obtain ⟨hc, hcs⟩ : goodCmd c = true ∧ cs.all goodCmd = true := by simpa using hgood
    simp only [runCmds, List.all_append, Bool.and_eq_true]
    refine ⟨?_, ih (runCmd g c).1 hcs⟩
    cases c with
    | ifNotExists out op =>
      simp only [runCmd]
      split
      · rfl
      · simp only [List.all_cons, List.all_nil, Bool.and_true]
        have hgc : createdOutput op = some out := by simpa [goodCmd] using hc
        cases op <;> first
          | (simp [noReservedDeletes]; done)
          | (simp [createdOutput] at hgc)
    | addCalc fc fn ft expr => exact addAndCalcOps_no_deletes _ fc fn ft expr
    | calcOnly fc fn expr => simp [runCmd, noReservedDeletes]
    | dropPresent fc deny =>
      simp only [runCmd]
      cases hf : deny.filter (fun f => decide (f ∈ all_fields (g.schemaF fc))) with
      | nil => rfl
      | cons a t =>
        simp only [List.all_cons, List.all_nil, Bool.and_true]
        have hdeny : deny.all
            (fun x => decide (upperStr x ∉ required_fields.map upperStr)) = true := by
          simpa [goodCmd] using hc
        show ((a :: t).all (fun x => decide (upperStr x ∉ required_fields.map upperStr))) = true
        rw [← hf, List.all_eq_true]
        rw [List.all_eq_true] at hdeny
        intro x hx
        exact hdeny x (List.mem_filter.mp hx).1
    | finalCleanup fc =>
      simp only [runCmd]
      cases hf : drop_fields (g.schemaF fc) with
      | nil => rfl
      | cons a t =>
        simp only [List.all_cons, List.all_nil, Bool.and_true]
        show ((a :: t).all (fun x => decide (upperStr x ∉ required_fields.map upperStr))) = true
        rw [← hf, List.all_eq_true]
        intro x hx
        unfold drop_fields at hx
        have hx2 := (List.mem_filter.mp hx).2
        have := of_decide_eq_true hx2
        exact decide_eq_true this.2

/-- Claim C2 (amended): re-running the pipeline against a geodatabase in which
a dataset already exists issues no call that creates or overwrites that
dataset (the guarded stage transform is skipped and nothing raises);
unguarded field-normalization and field-deletion statements may still write
into existing collections. -/
theorem stage_skip_amended (g : GDB) (o : String) (h : g.existsF o = true) :
    ((FireHistoryMakerBREPS_2025 g).2.all (fun op => !(createsOut op o))) = true :=
  runCmds_no_creation pipelineCmds g o (by decide) h

/-- Witness for C2 (amended): with every dataset existing, the run issues no
call creating FH_merge, by the claim theorem. -/
theorem stage_skip_amended_witness :
    ((FireHistoryMakerBREPS_2025 allExistGDB).2.all
      (fun op => !(createsOut op ("FH_merge")))) = true :=
  stage_skip_amended allExistGDB ("FH_merge") rfl

/-- Counterexample to C2 as stated: with every dataset (including the stage-2
output FIRE_HISTORY_TREATED_Select) already existing, re-running the pipeline
still issues write calls against that stage's output — the unguarded
normalization of START_DATE_INT and Burn_Date recalculates fields there — so
the write count against an existing stage output is not zero. -/
theorem stage_skip_counterexample :
    allExistGDB.existsF ("FIRE_HISTORY_TREATED_Select") = true
    ∧ ((FireHistoryMakerBREPS_2025 allExistGDB).2.any
        (fun op => writesTo op ("FIRE_HISTORY_TREATED_Select"))) = true :=
  ⟨rfl, by decide⟩

/-- Claim C9: no field-deletion call issued by the pipeline, on any
geodatabase state, carries a reserved field name (OBJECTID, Shape, Shape_Area,
Shape_Length, matched case-insensitively), so the engine's reserved-field
rejection is never triggered. -/
theorem no_reserved_field_deletes (g : GDB) :
    ((FireHistoryMakerBREPS_2025 g).2.all noReservedDeletes) = true :=
  runCmds_no_reserved pipelineCmds g (by decide)

/-- Witness for C9: the property evaluated on the all-existing geodatabase,
by the claim theorem. -/
theorem no_reserved_field_deletes_witness :
    ((FireHistoryMakerBREPS_2025 allExistGDB).2.all noReservedDeletes) = true :=
  no_reserved_field_deletes allExistGDB

end FireHistory
